import Mathlib

/-!
Verification of the energy-forecasting core of the smart-home dashboard
(src/src/utils/predictionUtils.js, plus the near-duplicate copy embedded in
src/src/components/common/PageHeader.js).

Modelling conventions for the shallow embedding:

* JavaScript numbers appearing here are all exact decimal / integer values, so
  wattages, quantiles and confidences are embedded as rationals.
* A call to `new Date(x)` is only ever used through `.getHours()` and
  `.getDay()`, so a date value is modelled by the structure `JsDate` holding
  those two fields (both non-negative, as in JavaScript).
* `Math.random()` is modelled by an explicit parameter: a single rational
  (one draw) or a stream `Nat -> Rat` (one draw per loop iteration).  No claim
  we verify depends on the actual distribution of the draws.
* `Math.round x` for the values arising here is `floor (x + 1/2)` (JavaScript
  rounds half toward positive infinity), embedded as `jsRound`.
* The possibly-null / possibly-non-array argument of the pipeline entry points
  is embedded as `Option (List RawReading)`: `none` models `null`,
  `undefined` and non-array inputs, which the source collapses by the guard
  `!readings || !Array.isArray(readings)`.
* Absent object fields are `Option.none`; the JavaScript fall-through
  `a || b || 0` on numbers is embedded by `jsOrQ`, which skips both absent
  fields and the (falsy) number 0.  Timestamp-valued fields hold `Date`
  objects or non-empty strings, which are always truthy, so their fall-through
  `a || b || new Date()` is embedded by `jsOrDate`, which skips absent fields.
-/

/-- JsDate models the result of `new Date(...)` as observed through
`getHours()` (0-23) and `getDay()` (0-6, 0 = Sunday). -/
structure JsDate where
  hour : ℕ
  dayOfWeek : ℕ
deriving DecidableEq, Repr

/-- RawReading models one raw record handed to the pipeline; each field of the
JavaScript object may be absent. -/
structure RawReading where
  Timestamp : Option JsDate
  timestamp : Option JsDate
  time : Option JsDate
  WattageReading : Option ℚ
  watts : Option ℚ
  value : Option ℚ
deriving DecidableEq, Repr

/-- NormalizedReading is the `{hour, dayOfWeek, wattage}` record produced by
the normalisation step of `preprocessEnergyData`. -/
structure NormalizedReading where
  hour : ℕ
  dayOfWeek : ℕ
  wattage : ℚ
deriving DecidableEq, Repr

/-- jsOrQ models the JavaScript expression `a || b` where `a` is a
possibly-absent number: an absent field and the number 0 are falsy and fall
through to `b`. -/
def jsOrQ (a : Option ℚ) (b : ℚ) : ℚ :=
  match a with
  | none => b
  | some x => if x = 0 then b else x

/-- jsOrDate models `a || b` where `a` is a possibly-absent `Date` object (or
non-empty date string): any present value is truthy. -/
def jsOrDate (a : Option JsDate) (b : JsDate) : JsDate :=
  a.getD b

/-- jsRound models `Math.round`, which rounds half toward positive
infinity. -/
def jsRound (x : ℚ) : ℤ :=
  ⌊x + 1 / 2⌋

/-- sortedValues models `[...values].sort((a, b) => a - b)` from
`calculateQuantile` (predictionUtils.js line 12). -/
def sortedValues (values : List ℚ) : List ℚ :=
  List.insertionSort (fun a b => a ≤ b) values

/-- quantilePos models `const pos = (sorted.length - 1) * q`
(predictionUtils.js line 13; the sorted copy has the same length as
`values`). -/
def quantilePos (values : List ℚ) (q : ℚ) : ℚ :=
  ((values.length - 1 : ℕ) : ℚ) * q

/-- quantileBase models `const base = Math.floor(pos)` (predictionUtils.js
line 14); the callers only use quantile parameters in `[0, 1]`, where `pos` is
non-negative. -/
def quantileBase (values : List ℚ) (q : ℚ) : ℕ :=
  (⌊quantilePos values q⌋).toNat

/-- quantileRest models `const rest = pos - base` (predictionUtils.js
line 15). -/
def quantileRest (values : List ℚ) (q : ℚ) : ℚ :=
  quantilePos values q - (quantileBase values q : ℚ)

/-- calculateQuantile embeds `calculateQuantile` (predictionUtils.js lines
9-22): sort a copy of the values, then linearly interpolate between the two
order statistics around position `(length - 1) * q`; the test
`sorted[base + 1] !== undefined` is the bounds check `base + 1 < length`. -/
def calculateQuantile (values : List ℚ) (q : ℚ) : ℚ :=
  if values.length = 0 then 0
  else if quantileBase values q + 1 < (sortedValues values).length then
    (sortedValues values).getD (quantileBase values q) 0 +
      quantileRest values q *
        ((sortedValues values).getD (quantileBase values q + 1) 0 -
          (sortedValues values).getD (quantileBase values q) 0)
  else
    (sortedValues values).getD (quantileBase values q) 0

/-- normalizeReading embeds the per-record lambda of `preprocessEnergyData`
(predictionUtils.js lines 36-46): resolve the timestamp through the alias
chain `Timestamp || timestamp || time || new Date()` and the wattage through
`WattageReading || watts || value || 0`, then extract hour and day. -/
def normalizeReading (now : JsDate) (r : RawReading) : NormalizedReading :=
  let timestamp := jsOrDate r.Timestamp (jsOrDate r.timestamp (jsOrDate r.time now))
  let wattage := jsOrQ r.WattageReading (jsOrQ r.watts (jsOrQ r.value 0))
  { hour := timestamp.hour, dayOfWeek := timestamp.dayOfWeek, wattage := wattage }

/-- generatePlaceholderData embeds `generatePlaceholderData`
(predictionUtils.js lines 68-113): one synthetic reading per hour 0-23 with a
banded base wattage plus `Math.random()` jitter (the stream `rand` supplies
one draw per iteration), scaled by 1.2 during daytime on weekends.  The
source also reads `now.getHours()` into an unused local. -/
def generatePlaceholderData (rand : ℕ → ℚ) (now : JsDate) : List NormalizedReading :=
  (List.range 24).map (fun h =>
    let base : ℚ :=
      if 23 ≤ h ∨ h < 5 then 300 + rand h * 200
      else if 5 ≤ h ∧ h < 9 then 1200 + rand h * 600
      else if 9 ≤ h ∧ h < 17 then 800 + rand h * 300
      else 1500 + rand h * 700
    let wattage : ℚ :=
      if (now.dayOfWeek = 0 ∨ now.dayOfWeek = 6) ∧ (9 ≤ h ∧ h < 22) then
        base * (12 / 10)
      else base
    { hour := h, dayOfWeek := now.dayOfWeek, wattage := wattage })

/-- iqrFilter embeds the outlier-removal tail of `preprocessEnergyData`
(predictionUtils.js lines 48-61): when more than 5 readings are present,
compute `q1`, `q3`, the interquartile range and the bounds
`[q1 - 1.5 iqr, q3 + 1.5 iqr]`, and keep the readings inside them; otherwise
return the input unchanged. -/
def iqrFilter (normalizedReadings : List NormalizedReading) : List NormalizedReading :=
  if 5 < normalizedReadings.length then
    let values := normalizedReadings.map (fun r => r.wattage)
    let q1 := calculateQuantile values (25 / 100)
    let q3 := calculateQuantile values (75 / 100)
    let iqr := q3 - q1
    let lowerBound := q1 - (15 / 10) * iqr
    let upperBound := q3 + (15 / 10) * iqr
    normalizedReadings.filter (fun r =>
      decide (lowerBound ≤ r.wattage ∧ r.wattage ≤ upperBound))
  else normalizedReadings

/-- preprocessEnergyData embeds `preprocessEnergyData` (predictionUtils.js
lines 29-62): `none` models a null / undefined / non-array argument; such
inputs and the empty array are replaced by placeholder data, otherwise the
readings are normalised and passed through the IQR outlier filter. -/
def preprocessEnergyData (rand : ℕ → ℚ) (now : JsDate)
    (readings : Option (List RawReading)) : List NormalizedReading :=
  match readings with
  | none => generatePlaceholderData rand now
  | some rs =>
    if rs.length = 0 then generatePlaceholderData rand now
    else iqrFilter (rs.map (normalizeReading now))

/-- generateDefaultValue embeds `generateDefaultValue` (predictionUtils.js
lines 152-168): a banded default wattage with a `Math.random()` jitter
modelled by the explicit draw `rand`. -/
def generateDefaultValue (rand : ℚ) (hour : ℕ) : ℚ :=
  if 23 ≤ hour ∨ hour < 5 then 300 + rand * 100
  else if 5 ≤ hour ∧ hour < 9 then 1200 + rand * 300
  else if 9 ≤ hour ∧ hour < 17 then 800 + rand * 200
  else 1500 + rand * 300

/-- similarPatternsFor embeds the two-stage pattern match at the head of
`predictEnergyUsage` (predictionUtils.js lines 124-130): exact
`(hour, dayOfWeek)` matches, relaxed to hour-only matches when there are
none. -/
def similarPatternsFor (historicalData : List NormalizedReading)
    (targetHour targetDay : ℕ) : List NormalizedReading :=
  let sp := historicalData.filter (fun d =>
    decide (d.hour = targetHour ∧ d.dayOfWeek = targetDay))
  if sp.length = 0 then
    historicalData.filter (fun d => decide (d.hour = targetHour))
  else sp

/-- predictEnergyUsage embeds `predictEnergyUsage` (predictionUtils.js lines
122-145): a recency-weighted average of the matched patterns, where the
pattern at 0-based index `i` receives weight `length - i`; with no match at
all it falls back to `generateDefaultValue` (whose `Math.random()` draw is the
parameter `rand`).  The two `reduce` calls over `(value, index)` pairs are
embedded as folds over `List.enum`. -/
def predictEnergyUsage (rand : ℚ) (historicalData : List NormalizedReading)
    (targetHour targetDay : ℕ) : ℚ :=
  let similarPatterns := similarPatternsFor historicalData targetHour targetDay
  if similarPatterns.length = 0 then generateDefaultValue rand targetHour
  else
    let totalWeight := similarPatterns.enum.foldl
      (fun sum p => sum + ((similarPatterns.length : ℚ) - (p.1 : ℚ))) 0
    let weightedSum := similarPatterns.enum.foldl
      (fun sum p => sum + p.2.wattage * ((similarPatterns.length : ℚ) - (p.1 : ℚ))) 0
    weightedSum / totalWeight

/-- calculatePredictionConfidence embeds `calculatePredictionConfidence`
(predictionUtils.js lines 176-198).  The source computes
`stdDev = Math.sqrt(variance)` and `cv = mean > 0 ? stdDev / mean : 1`, then
compares `cv` against 0.1 / 0.2 / 0.3.  Since `cv` is non-negative and the
thresholds are positive, `cv < c` holds exactly when `cv ^ 2 < c ^ 2`, and
`cv ^ 2 = variance / mean ^ 2` (and `1` in the `mean = 0` branch), so the
square root is eliminated by comparing the squared coefficient of variation
against the squared thresholds - this keeps the embedding inside ℚ. -/
def calculatePredictionConfidence (historicalData : List NormalizedReading)
    (targetHour targetDay : ℕ) : ℚ :=
  let similarPatterns := historicalData.filter (fun d =>
    decide (d.hour = targetHour ∧ d.dayOfWeek = targetDay))
  let patternCount := similarPatterns.length
  if patternCount = 0 then 6 / 10
  else if patternCount < 3 then 65 / 100
  else
    let values := similarPatterns.map (fun p => p.wattage)
    let mean := values.sum / (values.length : ℚ)
    let variance := (values.map (fun v => (v - mean) ^ 2)).sum / (values.length : ℚ)
    let cvSq := if 0 < mean then variance / (mean * mean) else 1
    if cvSq < 1 / 100 then 9 / 10
    else if cvSq < 4 / 100 then 8 / 10
    else if cvSq < 9 / 100 then 7 / 10
    else 6 / 10

/-- HourlyPrediction models one entry pushed by `generateHourlyPredictions`;
the absolute `time` field (a `Date` advanced by `i` hours from now) is
modelled by the offset `i` itself. -/
structure HourlyPrediction where
  timeOffset : ℕ
  hour : ℕ
  dayOfWeek : ℕ
  predictedWattage : ℚ
  confidence : ℚ
deriving DecidableEq, Repr

/-- generateHourlyPredictions embeds `generateHourlyPredictions`
(predictionUtils.js lines 205-240): preprocess, bail out with `[]` if that
somehow produced nothing, then build one prediction per offset `i < 24` with
`targetHour = (currentHour + i) % 24` and the day advanced by
`floor((currentHour + i) / 24)`; predicted wattages are rounded to one
decimal.  `randP` supplies the placeholder draws, `randD i` the
`generateDefaultValue` draw of iteration `i`. -/
def generateHourlyPredictions (randP randD : ℕ → ℚ) (now : JsDate)
    (readings : Option (List RawReading)) : List HourlyPrediction :=
  let processedData := preprocessEnergyData randP now readings
  if processedData.length = 0 then []
  else
    (List.range 24).map (fun i =>
      let targetHour := (now.hour + i) % 24
      let daysForward := (now.hour + i) / 24
      let targetDay := (now.dayOfWeek + daysForward) % 7
      let predictedWattage := predictEnergyUsage (randD i) processedData targetHour targetDay
      let confidence := calculatePredictionConfidence processedData targetHour targetDay
      { timeOffset := i, hour := targetHour, dayOfWeek := targetDay,
        predictedWattage := (jsRound (predictedWattage * 10) : ℚ) / 10,
        confidence := confidence })

/-- DailyForecastSummary models the record returned by
`calculateDailyPrediction`. -/
structure DailyForecastSummary where
  totalKWh : ℚ
  peakWattage : ℚ
  averageConfidence : ℚ
deriving DecidableEq, Repr

/-- calculateDailyPrediction embeds `calculateDailyPrediction`
(predictionUtils.js lines 247-275); `Math.max(...)` over the (in that branch
non-empty) wattage list is its maximum. -/
def calculateDailyPrediction (hourlyPredictions : List HourlyPrediction) :
    DailyForecastSummary :=
  if hourlyPredictions.length = 0 then
    { totalKWh := (8 / 10) * 24, peakWattage := 1800, averageConfidence := 6 / 10 }
  else
    let totalWattHours := (hourlyPredictions.map (fun p => p.predictedWattage)).sum
    let totalKWh := totalWattHours / 1000
    let peakWattage := ((hourlyPredictions.map (fun p => p.predictedWattage)).max?).getD 0
    let avgConfidence := (hourlyPredictions.map (fun p => p.confidence)).sum /
      (hourlyPredictions.length : ℚ)
    { totalKWh := (jsRound (totalKWh * 100) : ℚ) / 100,
      peakWattage := (jsRound peakWattage : ℚ),
      averageConfidence := (jsRound (avgConfidence * 100) : ℚ) / 100 }

/-- FormattedPrediction models one entry of the `hourlyPredictions` array of
the final analysis; the formatted time string and the `fullTime` date are
both represented by the hour offset. -/
structure FormattedPrediction where
  timeOffset : ℕ
  predictedWatts : ℚ
  confidence : ℚ
  confidenceIntervalLo : ℚ
  confidenceIntervalHi : ℚ
deriving DecidableEq, Repr

/-- PredictionAnalysis models the record returned by
`generateEnergyPredictionAnalysis`. -/
structure PredictionAnalysis where
  hourlyPredictions : List FormattedPrediction
  dailySummary : DailyForecastSummary
  isBasedOnRealData : Bool
  dataPoints : ℕ
deriving DecidableEq, Repr

/-- generateEnergyPredictionAnalysis embeds `generateEnergyPredictionAnalysis`
(predictionUtils.js lines 282-306); `historicalData && historicalData.length > 5`
is false for the null-like input `none`. -/
def generateEnergyPredictionAnalysis (randP randD : ℕ → ℚ) (now : JsDate)
    (historicalData : Option (List RawReading)) : PredictionAnalysis :=
  let hourlyPredictions := generateHourlyPredictions randP randD now historicalData
  let dailyPrediction := calculateDailyPrediction hourlyPredictions
  let formattedPredictions := hourlyPredictions.map (fun pred =>
    { timeOffset := pred.timeOffset
      predictedWatts := pred.predictedWattage
      confidence := pred.confidence
      confidenceIntervalLo := pred.predictedWattage * (1 - (1 - pred.confidence))
      confidenceIntervalHi := pred.predictedWattage * (1 + (1 - pred.confidence)) })
  { hourlyPredictions := formattedPredictions
    dailySummary := dailyPrediction
    isBasedOnRealData := match historicalData with
      | some l => decide (5 < l.length)
      | none => false
    dataPoints := match historicalData with
      | some l => l.length
      | none => 0 }

namespace PageHeader

/-- PageHeader.predictEnergyUsage embeds the near-duplicate
`predictEnergyUsage` inside PageHeader.js (lines 182-204): identical matching
and weighting, but the zero-match branch returns `null` (here `none`) instead
of a banded default. -/
def predictEnergyUsage (historicalData : List NormalizedReading)
    (targetHour targetDay : ℕ) : Option ℚ :=
  let sp := historicalData.filter (fun d =>
    decide (d.hour = targetHour ∧ d.dayOfWeek = targetDay))
  let similarPatterns :=
    if sp.length = 0 then
      historicalData.filter (fun d => decide (d.hour = targetHour))
    else sp
  if similarPatterns.length = 0 then none
  else
    let totalWeight := similarPatterns.enum.foldl
      (fun sum p => sum + ((similarPatterns.length : ℚ) - (p.1 : ℚ))) 0
    let weightedSum := similarPatterns.enum.foldl
      (fun sum p => sum + p.2.wattage * ((similarPatterns.length : ℚ) - (p.1 : ℚ))) 0
    some (weightedSum / totalWeight)

end PageHeader

/-!
Facts about the interpolated quantile: the sorted copy, bounds on the
interpolation position, and monotonicity.
-/

lemma sortedValues_length (v : List ℚ) : (sortedValues v).length = v.length :=
  (List.perm_insertionSort _ v).length_eq

lemma sortedValues_sorted (v : List ℚ) : (sortedValues v).Sorted (fun a b => a ≤ b) :=
  List.sorted_insertionSort _ v

lemma sortedValues_getD_mono (v : List ℚ) {i j : ℕ} (hij : i ≤ j) (hj : j < v.length) :
    (sortedValues v).getD i 0 ≤ (sortedValues v).getD j 0 := by
  have hj2 : j < (sortedValues v).length := by rw [sortedValues_length]; exact hj
  have hi2 : i < (sortedValues v).length := lt_of_le_of_lt hij hj2
  rw [List.getD_eq_getElem _ _ hi2, List.getD_eq_getElem _ _ hj2]
  have h := (sortedValues_sorted v).rel_get_of_le
    (a := ⟨i, hi2⟩) (b := ⟨j, hj2⟩) (Fin.mk_le_mk.mpr hij)
  simpa using h

lemma sortedValues_getD_mem (v : List ℚ) {i : ℕ} (hi : i < v.length) :
    (sortedValues v).getD i 0 ∈ v := by
  have hi2 : i < (sortedValues v).length := by rw [sortedValues_length]; exact hi
  rw [List.getD_eq_getElem _ _ hi2]
  exact (List.perm_insertionSort _ v).subset (List.getElem_mem hi2)

lemma quantilePos_nonneg (v : List ℚ) {q : ℚ} (hq : 0 ≤ q) : 0 ≤ quantilePos v q :=
  mul_nonneg (Nat.cast_nonneg _) hq

lemma quantileBase_cast (v : List ℚ) {q : ℚ} (hq : 0 ≤ q) :
    ((quantileBase v q : ℕ) : ℚ) = (⌊quantilePos v q⌋ : ℚ) := by
  unfold quantileBase
  have h0 : (0 : ℤ) ≤ ⌊quantilePos v q⌋ := Int.floor_nonneg.mpr (quantilePos_nonneg v hq)
  have h1 : ((⌊quantilePos v q⌋.toNat : ℕ) : ℤ) = ⌊quantilePos v q⌋ := Int.toNat_of_nonneg h0
  exact_mod_cast congrArg (fun z : ℤ => (z : ℚ)) h1

lemma quantileRest_nonneg (v : List ℚ) {q : ℚ} (hq : 0 ≤ q) : 0 ≤ quantileRest v q := by
  unfold quantileRest
  rw [quantileBase_cast v hq]
  have h := Int.floor_le (quantilePos v q)
  linarith

lemma quantileRest_lt_one (v : List ℚ) {q : ℚ} (hq : 0 ≤ q) : quantileRest v q < 1 := by
  unfold quantileRest
  rw [quantileBase_cast v hq]
  have h := Int.lt_floor_add_one (quantilePos v q)
  linarith

lemma quantileBase_le (v : List ℚ) {q : ℚ} (hq1 : q ≤ 1) :
    quantileBase v q ≤ v.length - 1 := by
  unfold quantileBase
  have h1 : quantilePos v q ≤ ((v.length - 1 : ℕ) : ℚ) := by
    unfold quantilePos
    calc ((v.length - 1 : ℕ) : ℚ) * q ≤ ((v.length - 1 : ℕ) : ℚ) * 1 :=
          mul_le_mul_of_nonneg_left hq1 (Nat.cast_nonneg _)
      _ = ((v.length - 1 : ℕ) : ℚ) := mul_one _
  have h2 : ⌊quantilePos v q⌋ ≤ ((v.length - 1 : ℕ) : ℤ) := by
    have h3 := Int.floor_le_floor h1
    simpa using h3
  omega

lemma calculateQuantile_eq_interp (v : List ℚ) (q : ℚ) (hv : v ≠ [])
    (hb : quantileBase v q + 1 < v.length) :
    calculateQuantile v q =
      (sortedValues v).getD (quantileBase v q) 0 +
        quantileRest v q *
          ((sortedValues v).getD (quantileBase v q + 1) 0 -
            (sortedValues v).getD (quantileBase v q) 0) := by
  have h0 : ¬ v.length = 0 := by simpa [List.length_eq_zero] using hv
  have hb2 : quantileBase v q + 1 < (sortedValues v).length := by
    rw [sortedValues_length]; exact hb
  unfold calculateQuantile
  rw [if_neg h0, if_pos hb2]

lemma calculateQuantile_eq_base (v : List ℚ) (q : ℚ) (hv : v ≠ [])
    (hb : ¬ quantileBase v q + 1 < v.length) :
    calculateQuantile v q = (sortedValues v).getD (quantileBase v q) 0 := by
  have h0 : ¬ v.length = 0 := by simpa [List.length_eq_zero] using hv
  have hb2 : ¬ quantileBase v q + 1 < (sortedValues v).length := by
    rw [sortedValues_length]; exact hb
  unfold calculateQuantile
  rw [if_neg h0, if_neg hb2]

lemma calculateQuantile_lower (v : List ℚ) {q : ℚ} (hq : 0 ≤ q) (hv : v ≠ []) :
    (sortedValues v).getD (quantileBase v q) 0 ≤ calculateQuantile v q := by
  by_cases hb : quantileBase v q + 1 < v.length
  · rw [calculateQuantile_eq_interp v q hv hb]
    have hd : (sortedValues v).getD (quantileBase v q) 0 ≤
        (sortedValues v).getD (quantileBase v q + 1) 0 :=
      sortedValues_getD_mono v (Nat.le_succ _) hb
    have hr := quantileRest_nonneg v hq
    have hm := mul_nonneg hr (sub_nonneg.mpr hd)
    linarith
  · rw [calculateQuantile_eq_base v q hv hb]

lemma calculateQuantile_upper (v : List ℚ) {q : ℚ} (hq : 0 ≤ q) (hv : v ≠ [])
    (hb : quantileBase v q + 1 < v.length) :
    calculateQuantile v q ≤ (sortedValues v).getD (quantileBase v q + 1) 0 := by
  rw [calculateQuantile_eq_interp v q hv hb]
  have hd : (sortedValues v).getD (quantileBase v q) 0 ≤
      (sortedValues v).getD (quantileBase v q + 1) 0 :=
    sortedValues_getD_mono v (Nat.le_succ _) hb
  have hr1 := quantileRest_lt_one v hq
  have hm := mul_le_mul_of_nonneg_right (le_of_lt hr1) (sub_nonneg.mpr hd)
  linarith

lemma calculateQuantile_mono (v : List ℚ) {p q : ℚ} (hp : 0 ≤ p) (hpq : p ≤ q)
    (hq1 : q ≤ 1) (hv : v ≠ []) : calculateQuantile v p ≤ calculateQuantile v q := by
  have hq0 : 0 ≤ q := le_trans hp hpq
  have hlen : 0 < v.length := List.length_pos.mpr hv
  have hposle : quantilePos v p ≤ quantilePos v q := by
    unfold quantilePos
    exact mul_le_mul_of_nonneg_left hpq (Nat.cast_nonneg _)
  have hbasele : quantileBase v p ≤ quantileBase v q := by
    unfold quantileBase
    exact Int.toNat_le_toNat (Int.floor_le_floor hposle)
  rcases Nat.lt_or_ge (quantileBase v p) (quantileBase v q) with hlt | hge
  · have hbq := quantileBase_le v hq1
    have hbp1 : quantileBase v p + 1 < v.length := by omega
    have s1 := calculateQuantile_upper v hp hv hbp1
    have s2 : (sortedValues v).getD (quantileBase v p + 1) 0 ≤
        (sortedValues v).getD (quantileBase v q) 0 :=
      sortedValues_getD_mono v (by omega) (by omega)
    have s3 := calculateQuantile_lower v hq0 hv
    linarith
  · have heq : quantileBase v p = quantileBase v q := le_antisymm hbasele hge
    have hrle : quantileRest v p ≤ quantileRest v q := by
      unfold quantileRest
      rw [heq]
      linarith
    by_cases hb : quantileBase v q + 1 < v.length
    · have hbp : quantileBase v p + 1 < v.length := by rw [heq]; exact hb
      rw [calculateQuantile_eq_interp v p hv hbp, calculateQuantile_eq_interp v q hv hb, heq]
      have hd : (sortedValues v).getD (quantileBase v q) 0 ≤
          (sortedValues v).getD (quantileBase v q + 1) 0 :=
        sortedValues_getD_mono v (Nat.le_succ _) hb
      have hr0 := quantileRest_nonneg v hp
      have hm := mul_le_mul_of_nonneg_right hrle (sub_nonneg.mpr hd)
      linarith
    · have hbp : ¬ quantileBase v p + 1 < v.length := by rw [heq]; exact hb
      rw [calculateQuantile_eq_base v p hv hbp, calculateQuantile_eq_base v q hv hb, heq]

lemma quantileBase_quarter (v : List ℚ) :
    quantileBase v (25 / 100) = (v.length - 1) / 4 := by
  unfold quantileBase
  have h1 : quantilePos v (25 / 100) = (((v.length - 1 : ℕ) : ℤ) : ℚ) / ((4 : ℕ) : ℚ) := by
    unfold quantilePos
    push_cast
    ring
  rw [h1, Rat.floor_intCast_div_natCast]
  omega

lemma quantileBase_threequarter (v : List ℚ) :
    quantileBase v (75 / 100) = 3 * (v.length - 1) / 4 := by
  unfold quantileBase
  have h1 : quantilePos v (75 / 100) = (((3 * (v.length - 1) : ℕ) : ℤ) : ℚ) / ((4 : ℕ) : ℚ) := by
    unfold quantilePos
    push_cast
    ring
  rw [h1, Rat.floor_intCast_div_natCast]
  omega

lemma exists_mem_between_quartiles (v : List ℚ) (h6 : 5 < v.length) :
    ∃ x ∈ v, calculateQuantile v (25 / 100) ≤ x ∧ x ≤ calculateQuantile v (75 / 100) := by
  have hv : v ≠ [] := List.length_pos.mp (by omega)
  have hb1 := quantileBase_quarter v
  have hb3 := quantileBase_threequarter v
  have hlt : quantileBase v (25 / 100) + 1 ≤ quantileBase v (75 / 100) := by
    rw [hb1, hb3]; omega
  have hb3lt : quantileBase v (75 / 100) < v.length := by rw [hb3]; omega
  have hbp1 : quantileBase v (25 / 100) + 1 < v.length := by omega
  refine ⟨(sortedValues v).getD (quantileBase v (25 / 100) + 1) 0,
    sortedValues_getD_mem v hbp1,
    calculateQuantile_upper v (by norm_num) hv hbp1, ?_⟩
  have s2 := sortedValues_getD_mono v hlt hb3lt
  have s3 := calculateQuantile_lower v (q := 75 / 100) (by norm_num) hv
  linarith

/-!
Facts about the preprocessing stage: the placeholder always has 24 entries,
the IQR filter is skipped on small inputs, and the filter never removes every
element of a non-empty input (some value always lies between the two
quartiles, hence inside the outlier bounds).
-/

lemma generatePlaceholderData_length (rand : ℕ → ℚ) (now : JsDate) :
    (generatePlaceholderData rand now).length = 24 := by
  simp [generatePlaceholderData]

lemma iqrFilter_small (rs : List NormalizedReading) (h : ¬ 5 < rs.length) :
    iqrFilter rs = rs := by
  unfold iqrFilter
  rw [if_neg h]

lemma iqrFilter_ne_nil (rs : List NormalizedReading) (h : rs ≠ []) : iqrFilter rs ≠ [] := by
  by_cases h5 : 5 < rs.length
  · have hvlen : 5 < (rs.map (fun r => r.wattage)).length := by
      rw [List.length_map]; exact h5
    obtain ⟨x, hxmem, hx1, hx3⟩ :=
      exists_mem_between_quartiles (rs.map (fun r => r.wattage)) hvlen
    obtain ⟨r, hr, hrx⟩ := List.mem_map.mp hxmem
    have hne : (rs.map (fun r => r.wattage)) ≠ [] := List.length_pos.mp (by omega)
    have hq13 : calculateQuantile (rs.map (fun r => r.wattage)) (25 / 100) ≤
        calculateQuantile (rs.map (fun r => r.wattage)) (75 / 100) :=
      calculateQuantile_mono _ (by norm_num) (by norm_num) (by norm_num) hne
    simp only [iqrFilter, if_pos h5]
    apply List.ne_nil_of_mem (a := r)
    apply List.mem_filter.mpr
    refine ⟨hr, ?_⟩
    rw [decide_eq_true_eq]
    have hx1w : calculateQuantile (rs.map (fun r => r.wattage)) (25 / 100) ≤ r.wattage := by
      rw [hrx]; exact hx1
    have hx3w : r.wattage ≤ calculateQuantile (rs.map (fun r => r.wattage)) (75 / 100) := by
      rw [hrx]; exact hx3
    constructor
    · linarith
    · linarith
  · rw [iqrFilter_small rs h5]
    exact h

lemma preprocessEnergyData_ne_nil (rand : ℕ → ℚ) (now : JsDate)
    (readings : Option (List RawReading)) :
    preprocessEnergyData rand now readings ≠ [] := by
  cases readings with
  | none =>
    simp only [preprocessEnergyData]
    intro hc
    have h24 := generatePlaceholderData_length rand now
    rw [hc] at h24
    simp at h24
  | some rs =>
    simp only [preprocessEnergyData]
    by_cases h0 : rs.length = 0
    · rw [if_pos h0]
      intro hc
      have h24 := generatePlaceholderData_length rand now
      rw [hc] at h24
      simp at h24
    · rw [if_neg h0]
      have h1 : rs ≠ [] := by
        intro hnil
        exact h0 (by rw [hnil]; rfl)
      apply iqrFilter_ne_nil
      intro hmapnil
      exact h1 (List.map_eq_nil_iff.mp hmapnil)

lemma generateHourlyPredictions_length (randP randD : ℕ → ℚ) (now : JsDate)
    (readings : Option (List RawReading)) :
    (generateHourlyPredictions randP randD now readings).length = 24 := by
  have hne := preprocessEnergyData_ne_nil randP now readings
  have h0 : ¬ (preprocessEnergyData randP now readings).length = 0 := by
    simpa [List.length_eq_zero] using hne
  simp only [generateHourlyPredictions]
  rw [if_neg h0]
  simp

/-- C1: for every input - the null-like `none`, the empty array, and any
array of raw readings - the full pipeline (`generateEnergyPredictionAnalysis`
via `generateHourlyPredictions`) returns exactly 24 entries in
`hourlyPredictions`, and in particular the preprocessing stage never yields an
empty sequence, whatever the random draws and the current date are. -/
theorem pipeline_hourlyPredictions_length_24 (randP randD : ℕ → ℚ) (now : JsDate)
    (input : Option (List RawReading)) :
    (generateEnergyPredictionAnalysis randP randD now input).hourlyPredictions.length = 24 ∧
      preprocessEnergyData randP now input ≠ [] := by
  refine ⟨?_, preprocessEnergyData_ne_nil randP now input⟩
  simp only [generateEnergyPredictionAnalysis]
  rw [List.length_map]
  exact generateHourlyPredictions_length randP randD now input

/-!
Bridging lemmas: the indexed `reduce` folds of `predictEnergyUsage` as closed
sums over the index range.
-/

lemma foldl_weight_enumFrom (c : ℚ) (l : List NormalizedReading) :
    ∀ (k : ℕ) (a : ℚ),
      (List.enumFrom k l).foldl (fun sum p => sum + (c - (p.1 : ℚ))) a =
        a + ∑ i ∈ Finset.range l.length, (c - ((k + i : ℕ) : ℚ)) := by
  induction l with
  | nil => intro k a; simp
  | cons x xs ih =>
    intro k a
    have hcons : List.enumFrom k (x :: xs) = (k, x) :: List.enumFrom (k + 1) xs := rfl
    rw [hcons, List.foldl_cons, ih (k + 1) (a + (c - (k : ℚ))), List.length_cons,
      Finset.sum_range_succ']
    have hk : ∀ i : ℕ, k + 1 + i = k + (i + 1) := fun i => by omega
    simp only [hk, Nat.add_zero]
    ring

lemma foldl_wattage_enumFrom (c : ℚ) (d : NormalizedReading) (l : List NormalizedReading) :
    ∀ (k : ℕ) (a : ℚ),
      (List.enumFrom k l).foldl (fun sum p => sum + p.2.wattage * (c - (p.1 : ℚ))) a =
        a + ∑ i ∈ Finset.range l.length, (l.getD i d).wattage * (c - ((k + i : ℕ) : ℚ)) := by
  induction l with
  | nil => intro k a; simp
  | cons x xs ih =>
    intro k a
    have hcons : List.enumFrom k (x :: xs) = (k, x) :: List.enumFrom (k + 1) xs := rfl
    rw [hcons, List.foldl_cons, ih (k + 1) (a + x.wattage * (c - (k : ℚ))), List.length_cons,
      Finset.sum_range_succ']
    have hk : ∀ i : ℕ, k + 1 + i = k + (i + 1) := fun i => by omega
    simp only [hk, Nat.add_zero, List.getD_cons_succ, List.getD_cons_zero]
    ring

lemma foldl_weight_enum (c : ℚ) (l : List NormalizedReading) :
    l.enum.foldl (fun sum p => sum + (c - (p.1 : ℚ))) 0 =
      ∑ i ∈ Finset.range l.length, (c - (i : ℚ)) := by
  have h := foldl_weight_enumFrom c l 0 0
  have henum : l.enum = List.enumFrom 0 l := rfl
  rw [henum, h, zero_add]
  apply Finset.sum_congr rfl
  intro i _
  rw [Nat.zero_add]

lemma foldl_wattage_enum (c : ℚ) (d : NormalizedReading) (l : List NormalizedReading) :
    l.enum.foldl (fun sum p => sum + p.2.wattage * (c - (p.1 : ℚ))) 0 =
      ∑ i ∈ Finset.range l.length, (l.getD i d).wattage * (c - (i : ℚ)) := by
  have h := foldl_wattage_enumFrom c d l 0 0
  have henum : l.enum = List.enumFrom 0 l := rfl
  rw [henum, h, zero_add]
  apply Finset.sum_congr rfl
  intro i _
  rw [Nat.zero_add]

/-- C3: whenever the pattern match (exact `(hour, day)`, relaxed to hour-only
when empty) selects N >= 1 patterns, `predictEnergyUsage` returns the
recency-weighted average: the sum of `wattage_i * (N - i)` over the matches in
their original order, divided by the sum of the weights `N - i`; the first
match (index 0) carries weight N and the last carries weight 1. -/
theorem predictEnergyUsage_recency_weighted (rand : ℚ)
    (historicalData : List NormalizedReading) (targetHour targetDay : ℕ)
    (h : similarPatternsFor historicalData targetHour targetDay ≠ []) :
    predictEnergyUsage rand historicalData targetHour targetDay =
      (∑ i ∈ Finset.range (similarPatternsFor historicalData targetHour targetDay).length,
          ((similarPatternsFor historicalData targetHour targetDay).getD i ⟨0, 0, 0⟩).wattage *
            (((similarPatternsFor historicalData targetHour targetDay).length - i : ℕ) : ℚ)) /
        (∑ i ∈ Finset.range (similarPatternsFor historicalData targetHour targetDay).length,
          (((similarPatternsFor historicalData targetHour targetDay).length - i : ℕ) : ℚ)) := by
  have h0 : ¬ (similarPatternsFor historicalData targetHour targetDay).length = 0 := by
    simpa [List.length_eq_zero] using h
  simp only [predictEnergyUsage]
  rw [if_neg h0,
    foldl_weight_enum ((similarPatternsFor historicalData targetHour targetDay).length : ℚ)
      (similarPatternsFor historicalData targetHour targetDay),
    foldl_wattage_enum ((similarPatternsFor historicalData targetHour targetDay).length : ℚ)
      ⟨0, 0, 0⟩ (similarPatternsFor historicalData targetHour targetDay)]
  congr 1
  · apply Finset.sum_congr rfl
    intro i hi
    rw [Nat.cast_sub (le_of_lt (Finset.mem_range.mp hi))]
  · apply Finset.sum_congr rfl
    intro i hi
    rw [Nat.cast_sub (le_of_lt (Finset.mem_range.mp hi))]

/-- C3 witness: the weighted-average identity applied at a concrete history
of two matching readings. -/
theorem predictEnergyUsage_recency_weighted_witness :
    similarPatternsFor [⟨3, 1, 10⟩, ⟨3, 1, 40⟩] 3 1 ≠ [] ∧
      predictEnergyUsage 0 [⟨3, 1, 10⟩, ⟨3, 1, 40⟩] 3 1 =
        (∑ i ∈ Finset.range (similarPatternsFor [⟨3, 1, 10⟩, ⟨3, 1, 40⟩] 3 1).length,
            ((similarPatternsFor [⟨3, 1, 10⟩, ⟨3, 1, 40⟩] 3 1).getD i ⟨0, 0, 0⟩).wattage *
              (((similarPatternsFor [⟨3, 1, 10⟩, ⟨3, 1, 40⟩] 3 1).length - i : ℕ) : ℚ)) /
          (∑ i ∈ Finset.range (similarPatternsFor [⟨3, 1, 10⟩, ⟨3, 1, 40⟩] 3 1).length,
            (((similarPatternsFor [⟨3, 1, 10⟩, ⟨3, 1, 40⟩] 3 1).length - i : ℕ) : ℚ)) :=
  ⟨by decide, predictEnergyUsage_recency_weighted 0 [⟨3, 1, 10⟩, ⟨3, 1, 40⟩] 3 1 (by decide)⟩

lemma predict_100_200_300 (rand : ℚ) (h d : ℕ) :
    predictEnergyUsage rand [⟨h, d, 100⟩, ⟨h, d, 200⟩, ⟨h, d, 300⟩] h d = 500 / 3 := by
  simp [predictEnergyUsage, similarPatternsFor, List.filter, List.enum, List.enumFrom]
  norm_num

lemma jsRound_of_500_3 : (jsRound (500 / 3 * 10) : ℚ) / 10 = 1667 / 10 := by
  norm_num [jsRound]

/-- C2 counterexample: with matched wattages [100, 200, 300] the prediction is
not 116.67 and its 1-decimal rounding is not 116.7: the weighted average
(100*3 + 200*2 + 300*1) / 6 equals 500/3 = 166.67. -/
theorem predictEnergyUsage_example_not_116 :
    predictEnergyUsage 0 [⟨14, 2, 100⟩, ⟨14, 2, 200⟩, ⟨14, 2, 300⟩] 14 2 ≠ 11667 / 100 ∧
      (jsRound (predictEnergyUsage 0 [⟨14, 2, 100⟩, ⟨14, 2, 200⟩, ⟨14, 2, 300⟩] 14 2 * 10) : ℚ) /
          10 ≠ 1167 / 10 := by
  have key := predict_100_200_300 0 14 2
  constructor
  · rw [key]
    norm_num
  · rw [key, jsRound_of_500_3]
    norm_num

/-- C2 amended: given filtered historical matches with wattages
[100, 200, 300] for a fixed `(hour, day)` pair in that order,
`predictEnergyUsage` returns (100*3 + 200*2 + 300*1) / 6 = 500/3 = 166.67,
which rounded to 1 decimal in the assembled prediction is 166.7. -/
theorem predictEnergyUsage_example_166_7 (rand : ℚ) (h d : ℕ) :
    predictEnergyUsage rand [⟨h, d, 100⟩, ⟨h, d, 200⟩, ⟨h, d, 300⟩] h d = 500 / 3 ∧
      (jsRound (predictEnergyUsage rand [⟨h, d, 100⟩, ⟨h, d, 200⟩, ⟨h, d, 300⟩] h d * 10) : ℚ) /
          10 = 1667 / 10 := by
  refine ⟨predict_100_200_300 rand h d, ?_⟩
  rw [predict_100_200_300 rand h d, jsRound_of_500_3]

/-- C4 counterexample: on the null-like input (`none`, modelling
null / undefined / a non-array value) the preprocessing stage does not return
an empty sequence: it returns the 24 synthetic placeholder entries itself. -/
theorem preprocess_null_not_empty :
    preprocessEnergyData (fun _ => 0) ⟨0, 0⟩ none ≠ [] ∧
      (preprocessEnergyData (fun _ => 0) ⟨0, 0⟩ none).length = 24 :=
  ⟨preprocessEnergyData_ne_nil _ _ _, generatePlaceholderData_length _ _⟩

/-- C4 amended: when `preprocessEnergyData` is given null, undefined or a
non-array value (and likewise the empty array), it returns the 24-entry
synthetic placeholder data itself - the synthetic data is supplied by this
stage, not downstream - and, being a total function, it never raises an
error. -/
theorem preprocess_null_returns_placeholder (rand : ℕ → ℚ) (now : JsDate)
    (input : Option (List RawReading)) (h : input = none ∨ input = some []) :
    preprocessEnergyData rand now input = generatePlaceholderData rand now ∧
      (preprocessEnergyData rand now input).length = 24 := by
  rcases h with rfl | rfl
  · exact ⟨rfl, generatePlaceholderData_length rand now⟩
  · exact ⟨rfl, generatePlaceholderData_length rand now⟩

/-- C4 witness: the amended statement applied at the concrete null-like
input. -/
theorem preprocess_null_returns_placeholder_witness :
    ((none : Option (List RawReading)) = none ∨
        (none : Option (List RawReading)) = some []) ∧
      (preprocessEnergyData (fun _ => 0) ⟨0, 0⟩ none =
          generatePlaceholderData (fun _ => 0) ⟨0, 0⟩ ∧
        (preprocessEnergyData (fun _ => 0) ⟨0, 0⟩ none).length = 24) :=
  ⟨Or.inl rfl, preprocess_null_returns_placeholder (fun _ => 0) ⟨0, 0⟩ none (Or.inl rfl)⟩

/-- C7 counterexample: the IQR outlier filter is not idempotent.  For seven
readings with wattages 0,0,0,0,0,1,2 the first pass has q1 = 0, q3 = 1/2,
bounds [-3/4, 5/4], and removes only the reading with wattage 2; on the
six surviving readings the recomputed quartiles are q1 = q3 = 0, the
interquartile range collapses to 0, and the second pass also removes the
reading with wattage 1. -/
theorem iqrFilter_not_idempotent :
    iqrFilter (iqrFilter [⟨0, 0, 0⟩, ⟨0, 0, 0⟩, ⟨0, 0, 0⟩, ⟨0, 0, 0⟩, ⟨0, 0, 0⟩,
        ⟨0, 0, 1⟩, ⟨0, 0, 2⟩]) ≠
      iqrFilter [⟨0, 0, 0⟩, ⟨0, 0, 0⟩, ⟨0, 0, 0⟩, ⟨0, 0, 0⟩, ⟨0, 0, 0⟩,
        ⟨0, 0, 1⟩, ⟨0, 0, 2⟩] := by
  have h1 : iqrFilter [⟨0, 0, 0⟩, ⟨0, 0, 0⟩, ⟨0, 0, 0⟩, ⟨0, 0, 0⟩, ⟨0, 0, 0⟩,
      ⟨0, 0, 1⟩, ⟨0, 0, 2⟩] =
      ([⟨0, 0, 0⟩, ⟨0, 0, 0⟩, ⟨0, 0, 0⟩, ⟨0, 0, 0⟩, ⟨0, 0, 0⟩, ⟨0, 0, 1⟩] :
        List NormalizedReading) := by
    norm_num [iqrFilter, calculateQuantile, sortedValues, quantilePos, quantileBase,
      quantileRest, List.insertionSort, List.orderedInsert, List.filter,
      show Int.toNat 4 = 4 from rfl, show Int.toNat 1 = 1 from rfl,
      List.getD_cons_zero, List.getD_cons_succ]
  have h2 : iqrFilter [⟨0, 0, 0⟩, ⟨0, 0, 0⟩, ⟨0, 0, 0⟩, ⟨0, 0, 0⟩, ⟨0, 0, 0⟩,
      ⟨0, 0, 1⟩] =
      ([⟨0, 0, 0⟩, ⟨0, 0, 0⟩, ⟨0, 0, 0⟩, ⟨0, 0, 0⟩, ⟨0, 0, 0⟩] :
        List NormalizedReading) := by
    norm_num [iqrFilter, calculateQuantile, sortedValues, quantilePos, quantileBase,
      quantileRest, List.insertionSort, List.orderedInsert, List.filter,
      show Int.toNat 3 = 3 from rfl, show Int.toNat 1 = 1 from rfl,
      List.getD_cons_zero, List.getD_cons_succ]
  rw [h1, h2]
  decide

/-- C7 amended: a second application of the IQR filter can remove further
elements (the filter is not idempotent in general); idempotence does hold in
exactly the situations the counterexample avoids: when the first application
removes no element, or leaves at most 5 readings (so that the sample-size
guard skips the second pass). -/
theorem iqrFilter_conditionally_idempotent (s : List NormalizedReading)
    (h : iqrFilter s = s ∨ (iqrFilter s).length ≤ 5) :
    iqrFilter (iqrFilter s) = iqrFilter s := by
  rcases h with h | h
  · rw [h]
    exact h
  · exact iqrFilter_small _ (by omega)

/-- C7 witness: the conditional idempotence applied to seven identical
readings, which the first pass keeps in full. -/
theorem iqrFilter_conditionally_idempotent_witness :
    (iqrFilter [⟨0, 0, 5⟩, ⟨0, 0, 5⟩, ⟨0, 0, 5⟩, ⟨0, 0, 5⟩, ⟨0, 0, 5⟩, ⟨0, 0, 5⟩,
          ⟨0, 0, 5⟩] =
        [⟨0, 0, 5⟩, ⟨0, 0, 5⟩, ⟨0, 0, 5⟩, ⟨0, 0, 5⟩, ⟨0, 0, 5⟩, ⟨0, 0, 5⟩, ⟨0, 0, 5⟩] ∨
      (iqrFilter [⟨0, 0, 5⟩, ⟨0, 0, 5⟩, ⟨0, 0, 5⟩, ⟨0, 0, 5⟩, ⟨0, 0, 5⟩, ⟨0, 0, 5⟩,
          ⟨0, 0, 5⟩]).length ≤ 5) ∧
      iqrFilter (iqrFilter [⟨0, 0, 5⟩, ⟨0, 0, 5⟩, ⟨0, 0, 5⟩, ⟨0, 0, 5⟩, ⟨0, 0, 5⟩,
          ⟨0, 0, 5⟩, ⟨0, 0, 5⟩]) =
        iqrFilter [⟨0, 0, 5⟩, ⟨0, 0, 5⟩, ⟨0, 0, 5⟩, ⟨0, 0, 5⟩, ⟨0, 0, 5⟩, ⟨0, 0, 5⟩,
          ⟨0, 0, 5⟩] := by
  have h5 : iqrFilter [⟨0, 0, 5⟩, ⟨0, 0, 5⟩, ⟨0, 0, 5⟩, ⟨0, 0, 5⟩, ⟨0, 0, 5⟩, ⟨0, 0, 5⟩,
      ⟨0, 0, 5⟩] =
      ([⟨0, 0, 5⟩, ⟨0, 0, 5⟩, ⟨0, 0, 5⟩, ⟨0, 0, 5⟩, ⟨0, 0, 5⟩, ⟨0, 0, 5⟩, ⟨0, 0, 5⟩] :
        List NormalizedReading) := by
    norm_num [iqrFilter, calculateQuantile, sortedValues, quantilePos, quantileBase,
      quantileRest, List.insertionSort, List.orderedInsert, List.filter,
      show Int.toNat 4 = 4 from rfl, show Int.toNat 1 = 1 from rfl,
      List.getD_cons_zero, List.getD_cons_succ]
  exact ⟨Or.inl h5, iqrFilter_conditionally_idempotent _ (Or.inl h5)⟩

/-- C8: for every non-empty array of values the linearly interpolated
quantile is monotone between the two quartile parameters:
`calculateQuantile values 0.25 <= calculateQuantile values 0.75`. -/
theorem calculateQuantile_quartile_monotone (values : List ℚ) (h : values ≠ []) :
    calculateQuantile values 0.25 ≤ calculateQuantile values 0.75 :=
  calculateQuantile_mono values (by norm_num) (by norm_num) (by norm_num) h

/-- C8 witness: quartile monotonicity applied at a concrete value list. -/
theorem calculateQuantile_quartile_monotone_witness :
    ([1, 5, 2] : List ℚ) ≠ [] ∧
      calculateQuantile [1, 5, 2] 0.25 ≤ calculateQuantile [1, 5, 2] 0.75 :=
  ⟨by decide, calculateQuantile_quartile_monotone [1, 5, 2] (by decide)⟩

/-- C6: for every historical data set and every target `(hour, day)`, the
confidence returned by `calculatePredictionConfidence` is an element of the
discrete set {0.6, 0.65, 0.7, 0.8, 0.9}, and hence lies in the closed
interval [0, 1]. -/
theorem calculatePredictionConfidence_discrete (historicalData : List NormalizedReading)
    (targetHour targetDay : ℕ) :
    (calculatePredictionConfidence historicalData targetHour targetDay = 0.6 ∨
        calculatePredictionConfidence historicalData targetHour targetDay = 0.65 ∨
        calculatePredictionConfidence historicalData targetHour targetDay = 0.7 ∨
        calculatePredictionConfidence historicalData targetHour targetDay = 0.8 ∨
        calculatePredictionConfidence historicalData targetHour targetDay = 0.9) ∧
      0 ≤ calculatePredictionConfidence historicalData targetHour targetDay ∧
        calculatePredictionConfidence historicalData targetHour targetDay ≤ 1 := by
  simp only [calculatePredictionConfidence]
  split_ifs <;> norm_num

/-- C5: for exactly 3 readings at hour 14, day-of-week 2, with wattages
500, 600, 700 (the sample-size bypass keeps all three), the confidence for
target (14, 2) is computed from 3 exact matches with mean 600 and squared
coefficient of variation 1/54 (population stddev about 81.6, CV about 0.136,
inside the [0.1, 0.2) band), giving 0.8. -/
theorem confidence_scenario_500_600_700 :
    calculatePredictionConfidence
        (preprocessEnergyData (fun _ => 0) ⟨0, 0⟩
          (some [⟨some ⟨14, 2⟩, none, none, some 500, none, none⟩,
            ⟨some ⟨14, 2⟩, none, none, some 600, none, none⟩,
            ⟨some ⟨14, 2⟩, none, none, some 700, none, none⟩])) 14 2 = 0.8 ∧
      ((preprocessEnergyData (fun _ => 0) ⟨0, 0⟩
          (some [⟨some ⟨14, 2⟩, none, none, some 500, none, none⟩,
            ⟨some ⟨14, 2⟩, none, none, some 600, none, none⟩,
            ⟨some ⟨14, 2⟩, none, none, some 700, none, none⟩])).filter (fun d =>
        decide (d.hour = 14 ∧ d.dayOfWeek = 2))).length = 3 := by
  have hpre : preprocessEnergyData (fun _ => 0) ⟨0, 0⟩
      (some [⟨some ⟨14, 2⟩, none, none, some 500, none, none⟩,
        ⟨some ⟨14, 2⟩, none, none, some 600, none, none⟩,
        ⟨some ⟨14, 2⟩, none, none, some 700, none, none⟩]) =
      ([⟨14, 2, 500⟩, ⟨14, 2, 600⟩, ⟨14, 2, 700⟩] : List NormalizedReading) := by
    norm_num [preprocessEnergyData, normalizeReading, jsOrQ, jsOrDate, iqrFilter]
  rw [hpre]
  constructor
  · norm_num [calculatePredictionConfidence, List.filter]
  · norm_num [List.filter]

/-- C9: the canonical `predictEnergyUsage` and the near-duplicate embedded in
PageHeader.js agree on every input where some historical entry matches the
target hour: both return the same recency-weighted average there (they can
differ only in the zero-match fallback, banded default versus null). -/
theorem pageHeader_predict_agrees (rand : ℚ) (historicalData : List NormalizedReading)
    (targetHour targetDay : ℕ) (h : ∃ r ∈ historicalData, r.hour = targetHour) :
    PageHeader.predictEnergyUsage historicalData targetHour targetDay =
      some (predictEnergyUsage rand historicalData targetHour targetDay) := by
  have hne : similarPatternsFor historicalData targetHour targetDay ≠ [] := by
    obtain ⟨r, hr, hrh⟩ := h
    unfold similarPatternsFor
    by_cases hsp : (historicalData.filter (fun d =>
        decide (d.hour = targetHour ∧ d.dayOfWeek = targetDay))).length = 0
    · rw [if_pos hsp]
      apply List.ne_nil_of_mem (a := r)
      apply List.mem_filter.mpr
      exact ⟨hr, by simp [hrh]⟩
    · rw [if_neg hsp]
      intro hc
      rw [hc] at hsp
      exact hsp rfl
  have h0 : ¬ (similarPatternsFor historicalData targetHour targetDay).length = 0 := by
    simpa [List.length_eq_zero] using hne
  simp only [similarPatternsFor] at h0
  simp only [PageHeader.predictEnergyUsage, predictEnergyUsage, similarPatternsFor]
  rw [if_neg h0, if_neg h0]

/-- C9 witness: the two variants agree at a concrete one-entry history whose
hour matches the target. -/
theorem pageHeader_predict_agrees_witness :
    (∃ r ∈ ([⟨7, 3, 250⟩] : List NormalizedReading), r.hour = 7) ∧
      PageHeader.predictEnergyUsage [⟨7, 3, 250⟩] 7 4 =
        some (predictEnergyUsage 0 [⟨7, 3, 250⟩] 7 4) :=
  ⟨⟨⟨7, 3, 250⟩, by decide, rfl⟩,
    pageHeader_predict_agrees 0 [⟨7, 3, 250⟩] 7 4 ⟨⟨7, 3, 250⟩, by decide, rfl⟩⟩

/-- C10: the normalizer resolves the wattage as the first truthy value among
`WattageReading`, `watts`, `value` (default 0), so an explicit zero in
`WattageReading` falls through to a positive `watts` alias; an absent record
yields wattage 0 and the current time; and the timestamp aliases fall through
from an absent `Timestamp` to `timestamp` the same way. -/
theorem normalizeReading_alias_fallthrough (now τ : JsDate) (t1 t2 t3 : Option JsDate)
    (v : Option ℚ) (w : ℚ) (hw : 0 < w) :
    (normalizeReading now ⟨t1, t2, t3, some 0, some w, v⟩).wattage = w ∧
      normalizeReading now ⟨none, none, none, none, none, none⟩ =
        ⟨now.hour, now.dayOfWeek, 0⟩ ∧
      (normalizeReading now ⟨none, some τ, t3, some w, none, none⟩).hour = τ.hour := by
  refine ⟨?_, ?_, ?_⟩
  · simp [normalizeReading, jsOrQ, hw.ne']
  · simp [normalizeReading, jsOrQ, jsOrDate]
  · simp [normalizeReading, jsOrDate]

/-- C10 witness: the alias fall-through applied at concrete field values. -/
theorem normalizeReading_alias_fallthrough_witness :
    (0 : ℚ) < 5 ∧
      ((normalizeReading ⟨1, 2⟩ ⟨none, none, none, some 0, some 5, none⟩).wattage = 5 ∧
        normalizeReading ⟨1, 2⟩ ⟨none, none, none, none, none, none⟩ = ⟨1, 2, 0⟩ ∧
        (normalizeReading ⟨1, 2⟩ ⟨none, some ⟨3, 4⟩, none, some 5, none, none⟩).hour = 3) :=
  ⟨by norm_num,
    normalizeReading_alias_fallthrough ⟨1, 2⟩ ⟨3, 4⟩ none none none none 5 (by norm_num)⟩
